import Mathlib

/-!
Shallow embedding of `sqlite_to_orm.py`: a translator from parsed SQL DDL
statements (CREATE TABLE / CREATE INDEX, as produced by the external sqlglot
parser) to a SQLAlchemy declarative ORM source text.

The sqlglot AST nodes are modelled as plain inductive types carrying exactly
the fields the translator reads; the translation function
`convert_sqlite_to_orm` follows the Python source line by line, with Python
exceptions modelled as `Except String`.
-/

namespace SqliteToOrm

/-- The raw SQL type tag of a column (`DataType.Type` in sqlglot).  The tags
listed are the keys of `SQL_TYPE_MAP`; every other tag is `other`. -/
inductive SqlTypeTag
  | varchar
  | text
  | smallint
  | bigint
  | int
  | decimal
  | datetime
  | other (s : String)
  deriving DecidableEq, Repr

/-- A sqlglot `DataType`: a type tag plus the literal argument strings
(`kind.expressions[i].this.this` in the source, e.g. `"200"` for
`VARCHAR(200)`). -/
structure DataType where
  this : SqlTypeTag
  expressions : List String
  deriving DecidableEq, Repr

/-- The kind of a column-level constraint.  The translator recognises only
`NotNullColumnConstraint`; every other kind is `other` and is a fatal error. -/
inductive ColConstraintKind
  | notNull
  | other
  deriving DecidableEq, Repr

/-- A sqlglot `ColumnDef`: column name, data type, and the kinds of its
column-level constraints, in order. -/
structure ColumnDef where
  name : String
  kind : DataType
  constraints : List ColConstraintKind
  deriving DecidableEq, Repr

/-- The single sub-expression of a table-level `Constraint` node, flattened to
the data the translator reads from it. -/
inductive ConstraintBody
  | primaryKey (cols : List String)
  | uniqueCols (cols : List String)
  | check (expr : String)
  | foreignKey (cols : List String) (refTable : String) (refCols : List String)
      (options : List String)
  | unknown
  deriving DecidableEq, Repr

/-- A sqlglot table-level `Constraint` node: its name (`const.this.this`) and
its sub-expressions (`const.expressions`). -/
structure Constraint where
  this : String
  expressions : List ConstraintBody
  deriving DecidableEq, Repr

/-- A sub-node of a CREATE TABLE body: a column definition, a named
constraint, or anything else (which the translator rejects). -/
inductive TableSub
  | col (c : ColumnDef)
  | const (c : Constraint)
  | other
  deriving DecidableEq, Repr

/-- A CREATE TABLE statement: table name and body sub-nodes in order. -/
structure TableDef where
  name : String
  expressions : List TableSub
  deriving DecidableEq, Repr

/-- A CREATE INDEX statement: index name, owning table name, uniqueness flag
and ordered column list. -/
structure IndexDef where
  name : String
  table : String
  unique : Bool
  columns : List String
  deriving DecidableEq, Repr

/-- One parsed top-level statement.  `table` and `index` are `Create` nodes of
kind `"TABLE"` / `"INDEX"`; `badCreate` is a `Create` of any other kind;
`notCreate` is any non-`Create` expression. -/
inductive Stmt
  | table (t : TableDef)
  | index (i : IndexDef)
  | badCreate (kind : String)
  | notCreate
  deriving DecidableEq, Repr

/-- `isinstance(node, Create)` for a statement. -/
def Stmt.isCreate : Stmt → Bool
  | .notCreate => false
  | _ => true

/-- `expr.kind in {"TABLE", "INDEX"}` for a `Create` statement. -/
def Stmt.kindOk : Stmt → Bool
  | .badCreate _ => false
  | _ => true

/-- Python `str.startswith`. -/
def py_startswith (s pre : String) : Bool :=
  pre.data.isPrefixOf s.data

/-- Python `str.isdigit` (restricted to ASCII digits, which is all the
translator's inputs use): nonempty and all characters are digits. -/
def py_isdigit (s : String) : Bool :=
  !s.data.isEmpty && s.data.all Char.isDigit

/-- Python `str.capitalize`: first character upper-cased, the rest
lower-cased. -/
def py_capitalize (s : String) : String :=
  match s.data with
  | [] => ""
  | c :: rest => String.mk (c.toUpper :: rest.map Char.toLower)

/-- Helper for `py_split`: split a character list at every separator. -/
def py_split_go (sep : Char) (acc : List Char) : List Char → List String
  | [] => [String.mk acc.reverse]
  | c :: rest =>
      if c = sep then String.mk acc.reverse :: py_split_go sep [] rest
      else py_split_go sep (c :: acc) rest

/-- Python `str.split` with an explicit one-character separator (the source
only splits on `"_"`): `"a_b".split("_") = ["a", "b"]`, `"".split("_") = [""]`. -/
def py_split (s : String) (sep : Char) : List String :=
  py_split_go sep [] s.data

/-- `MAX_LINE_LENGTH` from the source. -/
def MAX_LINE_LENGTH : Nat := 100

/-- `parse_varchar`: `VARCHAR(200)` maps to `("str", "String(200)")`; any
argument list that is not a single digit-string is a `ValueError`. -/
def parse_varchar (kind : DataType) : Except String (String × String) :=
  match kind.expressions with
  | [length] =>
      if py_isdigit length then .ok ("str", "String(" ++ length ++ ")")
      else .error ("Invalid varchar args: " ++ length)
  | es => .error ("Invalid varchar args: " ++ toString es.length)

/-- `parse_decimal`: `DECIMAL` maps to `("float", "")`, `DECIMAL(10, 2)` to
`("float", "Numeric(10, 2)")`; any other arity or non-digit argument is a
`ValueError`. -/
def parse_decimal (kind : DataType) : Except String (String × String) :=
  match kind.expressions with
  | [] => .ok ("float", "")
  | [prec, scale] =>
      if py_isdigit prec && py_isdigit scale then
        .ok ("float", "Numeric(" ++ prec ++ ", " ++ scale ++ ")")
      else .error ("Invalid decimal args: " ++ prec ++ ", " ++ scale)
  | es => .error ("Invalid decimal args: " ++ toString es.length)

/-- An entry of `SQL_TYPE_MAP`: either a constant `(python, alchemy)` pair or
a parametrizing callable. -/
inductive TypeMapping
  | fixed (py al : String)
  | param (f : DataType → Except String (String × String))

/-- `SQL_TYPE_MAP` from the source, as a lookup from type tag to entry. -/
def SQL_TYPE_MAP : SqlTypeTag → Option TypeMapping
  | .varchar => some (.param parse_varchar)
  | .text => some (.fixed "str" "Text()")
  | .smallint => some (.fixed "int" "SmallInteger()")
  | .bigint => some (.fixed "int" "BigInteger()")
  | .int => some (.fixed "int" "")
  | .decimal => some (.param parse_decimal)
  | .datetime => some (.fixed "datetime" "")
  | .other _ => none

/-- Lines 187-195 of the source: resolve a column's data type to a
`(map_python, map_alchemy)` pair via `SQL_TYPE_MAP`. -/
def resolveType (kind : DataType) : Except String (String × String) :=
  match SQL_TYPE_MAP kind.this with
  | none => .error "Unknown column type"
  | some (.param f) => f kind
  | some (.fixed py al) =>
      if !kind.expressions.isEmpty then
        .error "Simple mapping types should not have expressions"
      else .ok (py, al)

/-- Lines 196-201 of the source: fold over a column's constraints computing
`can_be_null`; any constraint kind other than not-null is a `TypeError`. -/
def computeNullable (can_be_null : Bool) : List ColConstraintKind → Except String Bool
  | [] => .ok can_be_null
  | .notNull :: rest => computeNullable false rest
  | .other :: _ => .error "Unknown column constraint type"

/-- Lines 185-208 of the source: emit one field declaration line for a
column, given the table's recorded primary-key column list. -/
def renderColumn (primary_key : List String) (col : ColumnDef) : Except String String := do
  let (map_python, map_alchemy) ← resolveType col.kind
  let can_be_null ← computeNullable true col.constraints
  let map_alchemy := if map_alchemy != "" then " = mapped_column(" ++ map_alchemy ++ ")" else ""
  let optionalSuffix := if can_be_null && !(primary_key.contains col.name) then " | None" else ""
  .ok ("    " ++ col.name ++ ": Mapped[" ++ map_python ++ optionalSuffix ++ "]" ++ map_alchemy)

/-- `renderColumn` mapped over the table's columns in order, failing on the
first bad column. -/
def renderColumns (primary_key : List String) : List ColumnDef → Except String (List String)
  | [] => .ok []
  | c :: rest => do
      let line ← renderColumn primary_key c
      let restLines ← renderColumns primary_key rest
      .ok (line :: restLines)

/-- Lines 164-169 of the source: fold over a foreign key's reference options
building `option_str`; any option other than `ON DELETE CASCADE` is a
`ValueError`. -/
def buildOptionStr (acc : String) : List String → Except String String
  | [] => .ok acc
  | opt :: rest =>
      if opt == "ON DELETE CASCADE" then
        buildOptionStr (acc ++ ", ondelete=\"CASCADE\"") rest
      else .error ("Unknown option " ++ opt)

/-- Quote a name for the generated source. -/
def quote (s : String) : String := "\"" ++ s ++ "\""

/-- Lines 138-174 of the source: process one table-level constraint, updating
the `primary_key` column list and the `table_args` declaration list. -/
def processConstraint (primary_key table_args : List String) (const : Constraint) :
    Except String (List String × List String) :=
  match const.expressions with
  | [this] =>
      match this with
      | .primaryKey cols =>
          if !primary_key.isEmpty then .error "Multiple primary keys found"
          else
            let pk := primary_key ++ cols
            let quoted := pk.map quote
            .ok (pk, table_args ++
              ["PrimaryKeyConstraint(" ++ String.intercalate ", " quoted ++
                ", name=" ++ quote const.this ++ ")"])
      | .uniqueCols cols =>
          let quoted := cols.map quote
          .ok (primary_key, table_args ++
            ["UniqueConstraint(" ++ String.intercalate ", " quoted ++
              ", name=" ++ quote const.this ++ ")"])
      | .check e =>
          .ok (primary_key, table_args ++
            ["CheckConstraint(" ++ quote e ++ ", name=" ++ quote const.this ++ ")"])
      | .foreignKey cols refTable refCols opts => do
          let curr_cols := cols.map quote
          let ref_cols := refCols.map (fun c => quote (refTable ++ "." ++ c))
          let option_str ← buildOptionStr "" opts
          .ok (primary_key, table_args ++
            ["ForeignKeyConstraint([" ++ String.intercalate ", " curr_cols ++ "], [" ++
              String.intercalate ", " ref_cols ++ "], name=" ++ quote const.this ++
              option_str ++ ")"])
      | .unknown => .error "Unknown constraint"
  | _ => .error "Invalid constraint definition: only single expression allowed"

/-- The constraint-processing loop of lines 138-174, over the table's
constraints in order. -/
def processConstraints (primary_key table_args : List String) :
    List Constraint → Except String (List String × List String)
  | [] => .ok (primary_key, table_args)
  | c :: rest => do
      let (pk, args) ← processConstraint primary_key table_args c
      processConstraints pk args rest

/-- Lines 112-119 of the source: render one index declaration string. -/
def renderIndex (i : IndexDef) : String :=
  let unique_str := if i.unique then ", unique=True" else ""
  let col_names := i.columns.map quote
  "Index(" ++ quote i.name ++ ", " ++ String.intercalate ", " col_names ++ unique_str ++ ")"

/-- Lines 110-120 of the source: the `table_indexes` map, as the lookup
function it induces.  The Python builds a dict keyed by owning table name via
`setdefault(...).append(...)` in statement order and only ever reads it with
`table_indexes.get(table, [])`, which is exactly this function. -/
def table_indexes (idxs : List IndexDef) (t : String) : List String :=
  (idxs.filter (fun i => i.table == t)).map renderIndex

/-- Lines 178-183 of the source: render the `__table_args__` block, multi-line
when the single-line join plus the fixed 23-character allowance exceeds
`MAX_LINE_LENGTH`, inline when nonempty otherwise, nothing when empty. -/
def renderTableArgs (table_args : List String) : List String :=
  if (String.intercalate ", " table_args).length + 23 > MAX_LINE_LENGTH then
    "    __table_args__ = (" :: (table_args.map (fun line => "        " ++ line ++ ",") ++ ["    )"])
  else if !table_args.isEmpty then
    ["    __table_args__ = (" ++ String.intercalate ", " table_args ++ ",)"]
  else []

/-- Line 132 of the source: a table sub-node must be a `ColumnDef` or a
`Constraint`. -/
def tableSubOk : TableSub → Bool
  | .other => false
  | _ => true

/-- `expr.find_all(Constraint)`: the table's constraint nodes in order. -/
def constraintsOf (t : TableDef) : List Constraint :=
  t.expressions.filterMap (fun s => match s with | .const c => some c | _ => none)

/-- `expr.find_all(ColumnDef)`: the table's column nodes in order. -/
def columnsOf (t : TableDef) : List ColumnDef :=
  t.expressions.filterMap (fun s => match s with | .col c => some c | _ => none)

/-- Line 126 of the source: snake_case table name to PascalCase class name. -/
def className (table : String) : String :=
  String.join ((py_split table '_').map py_capitalize)

/-- Lines 126-211 of the source: the class block emitted for one
(non-skipped) table, as a list of output lines.  The Python appends the
four header lines before validating the sub-nodes, but an error discards all
accumulated lines, so emission order inside one table is unobservable. -/
def emitTable (ti : String → List String) (t : TableDef) : Except String (List String) :=
  if !(t.expressions.all tableSubOk) then
    .error "Invalid table definition: only columns and constraints allowed"
  else do
    let (primary_key, cargs) ← processConstraints [] [] (constraintsOf t)
    let table_args := cargs ++ ti t.name
    let colLines ← renderColumns primary_key (columnsOf t)
    .ok (["class " ++ className t.name ++ "(Base):",
          "    \"\"\"ORM class for " ++ t.name ++ ".\"\"\"",
          "",
          "    __tablename__ = " ++ quote t.name]
         ++ renderTableArgs table_args ++ colLines ++ ["", ""])

/-- The table loop of lines 122-211: tables whose name starts with `sqlite_`
are skipped; every other table contributes its class block, in order. -/
def emitTables (ti : String → List String) : List TableDef → Except String (List String)
  | [] => .ok []
  | t :: rest =>
      if py_startswith t.name "sqlite_" then emitTables ti rest
      else do
        let block ← emitTable ti t
        let restLines ← emitTables ti rest
        .ok (block ++ restLines)

/-- The TABLE statements of the input, in order. -/
def tablesOf (stmts : List Stmt) : List TableDef :=
  stmts.filterMap (fun s => match s with | .table t => some t | _ => none)

/-- The INDEX statements of the input, in order. -/
def indexesOf (stmts : List Stmt) : List IndexDef :=
  stmts.filterMap (fun s => match s with | .index i => some i | _ => none)

/-- Lines 66-211 of the source, up to the final write: validate the statement
list and produce the body lines of the output document. -/
def convertStmts (stmts : List Stmt) : Except String (List String) :=
  if !(stmts.all Stmt.isCreate) then
    .error "Input file must contain only CREATE TABLE statements."
  else if !(stmts.all Stmt.kindOk) then
    .error "Input file must contain only CREATE TABLE and CREATE INDEX statements."
  else
    emitTables (table_indexes (indexesOf stmts)) (tablesOf stmts)

/-- The fixed output preamble (`header` in the source, with
`__version__ = "1.0.35"` interpolated). -/
def header : String :=
  "\"\"\"ORM schema.\"\"\"\n# ruff: noqa: E501\n\nfrom __future__ " ++
  "import annotations\n\nfrom datetime import datetime  # noqa: TC003\n\n" ++
  "from sqlalchemy import (\n    BigInteger,\n    CheckConstraint,\n" ++
  "    ForeignKeyConstraint,\n    Index,\n    Numeric,\n    PrimaryKeyConstraint,\n" ++
  "    SmallInteger,\n    String,\n    Text,\n    UniqueConstraint,\n)\n" ++
  "from sqlalchemy.orm import DeclarativeBase, Mapped, mapped_column\n\n" ++
  "__version__ = \"1.0.35\"\n\n\nclass Base(DeclarativeBase):\n" ++
  "    \"\"\"ORM base class.\"\"\"\n\n\n"

/-- `convert_sqlite_to_orm` as a pure function from the parsed statement list
to the full output text (or the raised error). -/
def convert_sqlite_to_orm (stmts : List Stmt) : Except String String := do
  let lines ← convertStmts stmts
  .ok (header ++ String.intercalate "\n" lines)

/-- The I/O shape of `convert_sqlite_to_orm`: `output_path.write_text` is the
final statement of the function, so the previous contents of the output file
(`none` if absent) survive exactly when the translation raises. -/
def runAndWrite (existing : Option String) (stmts : List Stmt) : Option String :=
  match convert_sqlite_to_orm stmts with
  | .ok text => some text
  | .error _ => existing

/-! ### Helper lemmas -/

theorem isPrefixOf_append_self (l r : List Char) : l.isPrefixOf (l ++ r) = true := by
  rw [List.isPrefixOf_iff_prefix]
  exact List.prefix_append l r

theorem py_startswith_append (p s : String) : py_startswith (p ++ s) p = true := by
  unfold py_startswith
  rw [String.data_append]
  exact isPrefixOf_append_self _ _

theorem not_class_of_space (cs : List Char) :
    List.isPrefixOf "class ".data (' ' :: cs) = false := by
  show List.isPrefixOf ('c' :: 'l' :: 'a' :: 's' :: 's' :: ' ' :: []) (' ' :: cs) = false
  simp [List.isPrefixOf]

theorem py_startswith_class_indent (x : String) :
    py_startswith ("    " ++ x) "class " = false := by
  unfold py_startswith
  rw [String.data_append]
  exact not_class_of_space (' ' :: ' ' :: ' ' :: x.data)

/-- The lines of a class block below its head: empty or indented. -/
def indentedOrEmpty (l : String) : Prop := l = "" ∨ ∃ y, l = "    " ++ y

theorem py_startswith_class_false {l : String} (h : indentedOrEmpty l) :
    py_startswith l "class " = false := by
  rcases h with rfl | ⟨y, rfl⟩
  · decide
  · exact py_startswith_class_indent y

theorem bind_ok_eq {α β ε : Type} (a : α) (f : α → Except ε β) :
    (Except.ok a >>= f) = f a := rfl

theorem bind_error_eq {α β ε : Type} (e : ε) (f : α → Except ε β) :
    ((Except.error e : Except ε α) >>= f) = Except.error e := rfl

theorem renderTableArgs_shape (args : List String) :
    ∀ l ∈ renderTableArgs args, ∃ y, l = "    " ++ y := by
  unfold renderTableArgs
  split
  · intro l hl
    rcases List.mem_cons.mp hl with rfl | hl
    · exact ⟨"__table_args__ = (", rfl⟩
    rcases List.mem_append.mp hl with hl | hl
    · obtain ⟨a, _, rfl⟩ := List.mem_map.mp hl
      exact ⟨("    " ++ a) ++ ",", rfl⟩
    · rcases List.mem_singleton.mp hl with rfl
      exact ⟨")", rfl⟩
  · split
    · intro l hl
      rcases List.mem_singleton.mp hl with rfl
      exact ⟨("__table_args__ = (" ++ String.intercalate ", " args) ++ ",)", rfl⟩
    · intro l hl
      simp at hl

theorem renderColumn_shape (pk : List String) (c : ColumnDef) (l : String)
    (h : renderColumn pk c = .ok l) : ∃ y, l = "    " ++ y := by
  unfold renderColumn at h
  cases hr : resolveType c.kind with
  | error e => rw [hr] at h; simp only [bind_error_eq] at h; exact Except.noConfusion h
  | ok pa =>
    obtain ⟨py, al⟩ := pa
    rw [hr] at h
    simp only [bind_ok_eq] at h
    cases hn : computeNullable true c.constraints with
    | error e => rw [hn] at h; simp only [bind_error_eq] at h; exact Except.noConfusion h
    | ok b =>
      rw [hn] at h
      simp only [bind_ok_eq] at h
      injection h with h
      refine ⟨c.name ++ (": Mapped[" ++ (py ++ ((if b && !(pk.contains c.name) then " | None" else "") ++ ("]" ++ (if al != "" then " = mapped_column(" ++ al ++ ")" else ""))))), ?_⟩
      rw [← h]
      simp only [String.append_assoc]

theorem renderColumns_shape (pk : List String) (cols : List ColumnDef) (ls : List String)
    (h : renderColumns pk cols = .ok ls) : ∀ l ∈ ls, ∃ y, l = "    " ++ y := by
  induction cols generalizing ls with
  | nil =>
      unfold renderColumns at h
      injection h with h
      subst h
      intro l hl
      simp at hl
  | cons c rest ih =>
      unfold renderColumns at h
      cases hr : renderColumn pk c with
      | error e => rw [hr] at h; simp only [bind_error_eq] at h; exact Except.noConfusion h
      | ok line =>
        rw [hr] at h
        simp only [bind_ok_eq] at h
        cases hrest : renderColumns pk rest with
        | error e => rw [hrest] at h; simp only [bind_error_eq] at h; exact Except.noConfusion h
        | ok restLines =>
          rw [hrest] at h
          simp only [bind_ok_eq] at h
          injection h with h
          subst h
          intro l hl
          rcases List.mem_cons.mp hl with rfl | hl
          · exact renderColumn_shape pk c l hr
          · exact ih restLines hrest l hl

theorem emitTable_shape (ti : String → List String) (t : TableDef) (ls : List String)
    (h : emitTable ti t = .ok ls) :
    ∃ rest, ls = ("class " ++ className t.name ++ "(Base):") :: rest ∧
      ∀ l ∈ rest, indentedOrEmpty l := by
  unfold emitTable at h
  split at h
  · exact Except.noConfusion h
  · cases hp : processConstraints [] [] (constraintsOf t) with
    | error e => rw [hp] at h; rw [bind_error_eq] at h; exact Except.noConfusion h
    | ok pa =>
      obtain ⟨pk, cargs⟩ := pa
      rw [hp] at h
      simp only [bind_ok_eq] at h
      cases hc : renderColumns pk (columnsOf t) with
      | error e => rw [hc] at h; simp only [bind_error_eq] at h; exact Except.noConfusion h
      | ok colLines =>
        rw [hc] at h
        simp only [bind_ok_eq] at h
        injection h with h
        subst h
        refine ⟨_, rfl, ?_⟩
        intro l hl
        simp only [List.append_eq, List.mem_cons, List.mem_append] at hl
        rcases hl with (((rfl | rfl | rfl | h0) | hl) | hl) | (rfl | rfl | h0)
        · exact Or.inr ⟨("\"\"\"ORM class for " ++ t.name) ++ ".\"\"\"", rfl⟩
        · exact Or.inl rfl
        · exact Or.inr ⟨"__tablename__ = " ++ quote t.name, rfl⟩
        · exact absurd h0 (List.not_mem_nil l)
        · exact Or.inr (renderTableArgs_shape _ l hl)
        · exact Or.inr (renderColumns_shape pk (columnsOf t) colLines hc l hl)
        · exact Or.inl rfl
        · exact Or.inl rfl
        · exact absurd h0 (List.not_mem_nil l)

theorem filter_class_of_indented (ls : List String) (h : ∀ l ∈ ls, indentedOrEmpty l) :
    ls.filter (fun l => py_startswith l "class ") = [] := by
  induction ls with
  | nil => rfl
  | cons a rest ih =>
      rw [List.filter_cons]
      rw [py_startswith_class_false (h a (List.mem_cons_self a rest))]
      exact ih (fun l hl => h l (List.mem_cons_of_mem a hl))

theorem emitTable_filter_class (ti : String → List String) (t : TableDef) (ls : List String)
    (h : emitTable ti t = .ok ls) :
    ls.filter (fun l => py_startswith l "class ") =
      ["class " ++ className t.name ++ "(Base):"] := by
  obtain ⟨rest, rfl, hrest⟩ := emitTable_shape ti t ls h
  rw [List.filter_cons]
  have hh : py_startswith ("class " ++ className t.name ++ "(Base):") "class " = true := by
    rw [String.append_assoc]
    exact py_startswith_append _ _
  rw [if_pos hh]
  rw [filter_class_of_indented rest hrest]

theorem emitTables_filter_class (ti : String → List String) (ts : List TableDef)
    (ls : List String) (h : emitTables ti ts = .ok ls) :
    ls.filter (fun l => py_startswith l "class ") =
      (ts.filter (fun t => !py_startswith t.name "sqlite_")).map
        (fun t => "class " ++ className t.name ++ "(Base):") := by
  induction ts generalizing ls with
  | nil =>
      unfold emitTables at h
      injection h with h
      subst h
      rfl
  | cons t rest ih =>
      unfold emitTables at h
      rw [List.filter_cons]
      split at h
      · next hs =>
          rw [hs]
          simp only [Bool.not_true, Bool.false_eq_true, if_false]
          exact ih ls h
      · next hs =>
          rw [Bool.not_eq_true] at hs
          rw [hs]
          simp only [Bool.not_false, if_true]
          cases hb : emitTable ti t with
          | error e => rw [hb] at h; simp only [bind_error_eq] at h; exact Except.noConfusion h
          | ok block =>
            rw [hb] at h
            simp only [bind_ok_eq] at h
            cases hr : emitTables ti rest with
            | error e => rw [hr] at h; simp only [bind_error_eq] at h; exact Except.noConfusion h
            | ok restLines =>
              rw [hr] at h
              simp only [bind_ok_eq] at h
              injection h with h
              subst h
              rw [List.filter_append]
              rw [emitTable_filter_class ti t block hb]
              rw [ih restLines hr]
              rw [List.map_cons]
              rfl

theorem emitTables_skip (ti : String → List String) (t : TableDef)
    (hs : py_startswith t.name "sqlite_" = true) (as bs : List TableDef) :
    emitTables ti (as ++ t :: bs) = emitTables ti (as ++ bs) := by
  induction as with
  | nil =>
      show emitTables ti (t :: bs) = emitTables ti bs
      conv_lhs => rw [emitTables]
      rw [if_pos hs]
  | cons a as ih =>
      show emitTables ti (a :: (as ++ t :: bs)) = emitTables ti (a :: (as ++ bs))
      unfold emitTables
      split
      · exact ih
      · rw [ih]

/-- Claim C1: each non-reserved table yields exactly one class block, in input
order; a reserved-prefix (`sqlite_`) table yields no class block and no error. -/
theorem claim_C1 :
    (∀ stmts lines, convertStmts stmts = .ok lines →
        lines.filter (fun l => py_startswith l "class ") =
          ((tablesOf stmts).filter (fun t => !py_startswith t.name "sqlite_")).map
            (fun t => "class " ++ className t.name ++ "(Base):")) ∧
    (∀ xs t ys, py_startswith t.name "sqlite_" = true →
        convertStmts (xs ++ Stmt.table t :: ys) = convertStmts (xs ++ ys)) := by
  constructor
  · intro stmts lines h
    unfold convertStmts at h
    split at h
    · exact Except.noConfusion h
    · split at h
      · exact Except.noConfusion h
      · exact emitTables_filter_class _ _ _ h
  · intro xs t ys hs
    have e1 : (xs ++ Stmt.table t :: ys).all Stmt.isCreate = (xs ++ ys).all Stmt.isCreate := by
      simp [Stmt.isCreate]
    have e2 : (xs ++ Stmt.table t :: ys).all Stmt.kindOk = (xs ++ ys).all Stmt.kindOk := by
      simp [Stmt.kindOk]
    have e3 : indexesOf (xs ++ Stmt.table t :: ys) = indexesOf (xs ++ ys) := by
      simp [indexesOf]
    have e4 : tablesOf (xs ++ Stmt.table t :: ys) = tablesOf xs ++ t :: tablesOf ys := by
      simp [tablesOf]
    have e5 : tablesOf (xs ++ ys) = tablesOf xs ++ tablesOf ys := by
      simp [tablesOf]
    unfold convertStmts
    rw [e1, e2, e3, e4, e5, emitTables_skip _ t hs]
theorem claim_C1_witness :
    (["class Users(Base):", "    \"\"\"ORM class for users.\"\"\"", "",
      "    __tablename__ = \"users\"", "    id: Mapped[int | None]", "", ""].filter
        (fun l => py_startswith l "class ") =
      ((tablesOf [Stmt.table ⟨"users", [TableSub.col ⟨"id", ⟨.int, []⟩, []⟩]⟩]).filter
          (fun t => !py_startswith t.name "sqlite_")).map
        (fun t => "class " ++ className t.name ++ "(Base):")) ∧
    convertStmts ([] ++ Stmt.table ⟨"sqlite_seq", [TableSub.other]⟩ ::
        [Stmt.table ⟨"users", [TableSub.col ⟨"id", ⟨.int, []⟩, []⟩]⟩]) =
      convertStmts ([] ++ [Stmt.table ⟨"users", [TableSub.col ⟨"id", ⟨.int, []⟩, []⟩]⟩]) :=
  ⟨claim_C1.1 _ _ (by rfl), claim_C1.2 [] _ _ (by rfl)⟩

/-- Claim C2: a column named in the primary-key list is emitted without the
optional marker even when no not-null constraint is present; a nullable
column not in the primary-key list gets the optional marker. -/
theorem claim_C2 (primary_key : List String) (col : ColumnDef) (py al : String) (b : Bool)
    (hr : resolveType col.kind = .ok (py, al))
    (hn : computeNullable true col.constraints = .ok b) :
    (primary_key.contains col.name = true →
        renderColumn primary_key col =
          .ok ("    " ++ col.name ++ ": Mapped[" ++ py ++ "]" ++
            (if al != "" then " = mapped_column(" ++ al ++ ")" else ""))) ∧
    (b = true → primary_key.contains col.name = false →
        renderColumn primary_key col =
          .ok ("    " ++ col.name ++ ": Mapped[" ++ py ++ " | None]" ++
            (if al != "" then " = mapped_column(" ++ al ++ ")" else ""))) := by
  constructor
  · intro hc
    unfold renderColumn
    rw [hr]
    simp only [bind_ok_eq]
    rw [hn]
    simp only [bind_ok_eq]
    simp only [hc, Bool.not_true, Bool.and_false, Bool.false_eq_true, if_false,
      String.append_empty]
  · intro hb hc
    unfold renderColumn
    rw [hr]
    simp only [bind_ok_eq]
    rw [hn]
    simp only [bind_ok_eq]
    rw [show (" | None]" : String) = " | None" ++ "]" from rfl]
    simp only [hb, hc, Bool.not_false, Bool.and_self, if_true, String.append_assoc]

/-- Witness for claim C2 at a concrete nullable column. -/
theorem claim_C2_witness :
    (renderColumn ["id"] ⟨"id", ⟨.int, []⟩, []⟩ =
      .ok ("    " ++ "id" ++ ": Mapped[" ++ "int" ++ "]" ++
        (if "" != "" then " = mapped_column(" ++ "" ++ ")" else ""))) ∧
    (renderColumn ["id"] ⟨"name", ⟨.varchar, ["50"]⟩, []⟩ =
      .ok ("    " ++ "name" ++ ": Mapped[" ++ "str" ++ " | None]" ++
        (if "String(50)" != "" then " = mapped_column(" ++ "String(50)" ++ ")" else ""))) :=
  ⟨(claim_C2 ["id"] ⟨"id", ⟨.int, []⟩, []⟩ "int" "" true (by rfl) (by rfl)).1 (by rfl),
   (claim_C2 ["id"] ⟨"name", ⟨.varchar, ["50"]⟩, []⟩ "str" "String(50)" true
      (by rfl) (by rfl)).2 rfl (by rfl)⟩

theorem py_startswith_trans (p r s : String) : py_startswith ((p ++ r) ++ s) p = true := by
  rw [String.append_assoc]
  exact py_startswith_append p (r ++ s)

theorem resolveType_varchar (k : DataType) (hk : k.this = SqlTypeTag.varchar) :
    resolveType k = parse_varchar k := by
  unfold resolveType
  rw [hk]
  rfl

theorem resolveType_decimal (k : DataType) (hk : k.this = SqlTypeTag.decimal) :
    resolveType k = parse_decimal k := by
  unfold resolveType
  rw [hk]
  rfl

/-- Claim C3: a bounded-string (VARCHAR) type with exactly one numeric
argument N maps to the string semantic type with storage type `String(N)`;
zero, several, or a non-numeric argument fails with an invalid-argument
error. -/
theorem claim_C3 (k : DataType) (hk : k.this = SqlTypeTag.varchar) :
    (∀ n, k.expressions = [n] → py_isdigit n = true →
        resolveType k = .ok ("str", "String(" ++ n ++ ")")) ∧
    ((k.expressions = [] ∨ 2 ≤ k.expressions.length ∨
        (∃ n, k.expressions = [n] ∧ py_isdigit n = false)) →
      ∃ msg, resolveType k = .error msg ∧
        py_startswith msg "Invalid varchar args" = true) := by
  rw [resolveType_varchar k hk]
  constructor
  · intro n he hd
    unfold parse_varchar
    rw [he]
    simp only [hd, if_true]
  · intro hbad
    unfold parse_varchar
    rcases hbad with he | hlen | ⟨n, he, hd⟩
    · rw [he]
      refine ⟨_, rfl, ?_⟩
      rw [show ("Invalid varchar args: " : String) = "Invalid varchar args" ++ ": " from rfl]
      exact py_startswith_trans _ _ _
    · cases hE : k.expressions with
      | nil => rw [hE] at hlen; simp at hlen
      | cons a tail =>
          cases tail with
          | nil => rw [hE] at hlen; simp at hlen
          | cons b tail2 =>
              refine ⟨_, rfl, ?_⟩
              rw [show ("Invalid varchar args: " : String) =
                "Invalid varchar args" ++ ": " from rfl]
              exact py_startswith_trans _ _ _
    · rw [he]
      simp only [hd, Bool.false_eq_true, if_false]
      refine ⟨_, rfl, ?_⟩
      rw [show ("Invalid varchar args: " : String) = "Invalid varchar args" ++ ": " from rfl]
      exact py_startswith_trans _ _ _

/-- Witness for claim C3 at `VARCHAR(50)` and `VARCHAR(a)`. -/
theorem claim_C3_witness :
    resolveType ⟨SqlTypeTag.varchar, ["50"]⟩ = .ok ("str", "String(" ++ "50" ++ ")") ∧
    ∃ msg, resolveType ⟨SqlTypeTag.varchar, ["a"]⟩ = .error msg ∧
      py_startswith msg "Invalid varchar args" = true :=
  ⟨(claim_C3 ⟨SqlTypeTag.varchar, ["50"]⟩ rfl).1 "50" rfl (by decide),
   (claim_C3 ⟨SqlTypeTag.varchar, ["a"]⟩ rfl).2 (Or.inr (Or.inr ⟨"a", rfl, by decide⟩))⟩
/-- Claim C4: a fixed-point (DECIMAL) type with zero arguments maps to the
floating semantic type with an empty storage-type expression (so no
`mapped_column` annotation is emitted); with two numeric arguments P, S it
maps to `Numeric(P, S)`; any other arity or non-numeric arguments fails. -/
theorem claim_C4 (k : DataType) (hk : k.this = SqlTypeTag.decimal) :
    (k.expressions = [] → resolveType k = .ok ("float", "")) ∧
    (∀ p s, k.expressions = [p, s] → py_isdigit p = true → py_isdigit s = true →
        resolveType k = .ok ("float", "Numeric(" ++ p ++ ", " ++ s ++ ")")) ∧
    (∀ (col : ColumnDef) (pk : List String) (b : Bool), col.kind = k →
        k.expressions = [] → computeNullable true col.constraints = .ok b →
        renderColumn pk col = .ok ("    " ++ col.name ++ ": Mapped[" ++ "float" ++
          (if b && !(pk.contains col.name) then " | None" else "") ++ "]")) ∧
    ((k.expressions.length = 1 ∨ 3 ≤ k.expressions.length ∨
        (∃ p s, k.expressions = [p, s] ∧ (py_isdigit p = false ∨ py_isdigit s = false))) →
      ∃ msg, resolveType k = .error msg ∧
        py_startswith msg "Invalid decimal args" = true) := by
  refine ⟨?_, ?_, ?_, ?_⟩
  · intro he
    rw [resolveType_decimal k hk]
    unfold parse_decimal
    rw [he]
  · intro p s he hp hs
    rw [resolveType_decimal k hk]
    unfold parse_decimal
    rw [he]
    simp only [hp, hs, Bool.and_self, if_true]
  · intro col pk b hcol he hn
    unfold renderColumn
    rw [hcol, resolveType_decimal k hk]
    unfold parse_decimal
    rw [he]
    simp only [bind_ok_eq]
    rw [hn]
    simp only [bind_ok_eq]
    simp only [bne_self_eq_false, Bool.false_eq_true, if_false, String.append_empty]
  · intro hbad
    rw [resolveType_decimal k hk]
    unfold parse_decimal
    rcases hbad with h1 | h3 | ⟨p, s, he, hd⟩
    · cases hE : k.expressions with
      | nil => rw [hE] at h1; simp at h1
      | cons a tail =>
          cases tail with
          | nil =>
              refine ⟨_, rfl, ?_⟩
              rw [show ("Invalid decimal args: " : String) =
                "Invalid decimal args" ++ ": " from rfl]
              exact py_startswith_trans _ _ _
          | cons b tail2 => rw [hE] at h1; simp at h1
    · cases hE : k.expressions with
      | nil => rw [hE] at h3; simp at h3
      | cons a tail =>
          cases tail with
          | nil => rw [hE] at h3; simp at h3
          | cons b tail2 =>
              cases tail2 with
              | nil => rw [hE] at h3; simp at h3
              | cons c tail3 =>
                  refine ⟨_, rfl, ?_⟩
                  rw [show ("Invalid decimal args: " : String) =
                    "Invalid decimal args" ++ ": " from rfl]
                  exact py_startswith_trans _ _ _
    · rw [he]
      have hcond : (py_isdigit p && py_isdigit s) = false := by
        rcases hd with hd | hd
        · rw [hd]; rfl
        · rw [hd, Bool.and_false]
      simp only [hcond, Bool.false_eq_true, if_false]
      refine ⟨_, rfl, ?_⟩
      rw [show ("Invalid decimal args: " : String) = "Invalid decimal args" ++ ": " from rfl]
      rw [String.append_assoc, String.append_assoc]
      exact py_startswith_append _ _

/-- Witness for claim C4 at `DECIMAL`, `DECIMAL(10, 2)` and `DECIMAL(1)`. -/
theorem claim_C4_witness :
    resolveType ⟨SqlTypeTag.decimal, []⟩ = .ok ("float", "") ∧
    resolveType ⟨SqlTypeTag.decimal, ["10", "2"]⟩ =
      .ok ("float", "Numeric(" ++ "10" ++ ", " ++ "2" ++ ")") ∧
    renderColumn [] ⟨"price", ⟨SqlTypeTag.decimal, []⟩, []⟩ =
      .ok ("    " ++ "price" ++ ": Mapped[" ++ "float" ++
        (if true && !(List.contains [] "price") then " | None" else "") ++ "]") ∧
    ∃ msg, resolveType ⟨SqlTypeTag.decimal, ["1"]⟩ = .error msg ∧
      py_startswith msg "Invalid decimal args" = true :=
  ⟨(claim_C4 ⟨SqlTypeTag.decimal, []⟩ rfl).1 rfl,
   (claim_C4 ⟨SqlTypeTag.decimal, ["10", "2"]⟩ rfl).2.1 "10" "2" rfl (by decide) (by decide),
   (claim_C4 ⟨SqlTypeTag.decimal, []⟩ rfl).2.2.1 ⟨"price", ⟨SqlTypeTag.decimal, []⟩, []⟩ [] true
      rfl rfl (by rfl),
   (claim_C4 ⟨SqlTypeTag.decimal, ["1"]⟩ rfl).2.2.2 (Or.inl rfl)⟩

theorem processConstraints_append (pre rest : List Constraint) (pk args : List String) :
    processConstraints pk args (pre ++ rest) =
      match processConstraints pk args pre with
      | .error e => .error e
      | .ok (p, a) => processConstraints p a rest := by
  induction pre generalizing pk args with
  | nil => rfl
  | cons c pre ih =>
      rw [List.cons_append]
      cases hc : processConstraint pk args c with
      | error e =>
          have l : processConstraints pk args (c :: (pre ++ rest)) = .error e := by
            conv_lhs => rw [processConstraints]
            rw [hc]
            rfl
          have r : processConstraints pk args (c :: pre) = .error e := by
            conv_lhs => rw [processConstraints]
            rw [hc]
            rfl
          rw [l, r]
      | ok pa =>
          obtain ⟨p, a⟩ := pa
          have l : processConstraints pk args (c :: (pre ++ rest)) =
              processConstraints p a (pre ++ rest) := by
            conv_lhs => rw [processConstraints]
            rw [hc]
            rfl
          have r : processConstraints pk args (c :: pre) = processConstraints p a pre := by
            conv_lhs => rw [processConstraints]
            rw [hc]
            rfl
          rw [l, r, ih p a]

/-- Claim C5: a second PRIMARY KEY constraint, after one primary key has been
recorded for the table, fails with the "multiple primary keys" error, which
propagates so that the whole run aborts. -/
theorem claim_C5 :
    (∀ (pre : List Constraint) (pk args pkAcc argsAcc : List String) (name : String)
        (cols : List String) (mid : List Constraint),
        processConstraints pk args pre = .ok (pkAcc, argsAcc) → pkAcc ≠ [] →
        processConstraints pk args (pre ++ ⟨name, [.primaryKey cols]⟩ :: mid) =
          .error "Multiple primary keys found") ∧
    (∀ (ti : String → List String) (t : TableDef) (msg : String),
        (t.expressions.all tableSubOk) = true →
        processConstraints [] [] (constraintsOf t) = .error msg →
        emitTable ti t = .error msg) ∧
    (∀ (ti : String → List String) (ts1 : List TableDef) (t : TableDef) (ts2 : List TableDef)
        (msg : String) (pre : List String),
        emitTables ti ts1 = .ok pre → py_startswith t.name "sqlite_" = false →
        emitTable ti t = .error msg →
        emitTables ti (ts1 ++ t :: ts2) = .error msg) := by
  refine ⟨?_, ?_, ?_⟩
  · intro pre pk args pkAcc argsAcc name cols mid h hne
    rw [processConstraints_append, h]
    show processConstraints pkAcc argsAcc (⟨name, [ConstraintBody.primaryKey cols]⟩ :: mid) = _
    unfold processConstraints
    have hE : pkAcc.isEmpty = false := by
      cases pkAcc with
      | nil => exact absurd rfl hne
      | cons a l => rfl
    unfold processConstraint
    simp only [hE, Bool.not_false, if_true, bind_error_eq]
  · intro ti t msg hok hpc
    unfold emitTable
    simp only [hok, Bool.not_true, Bool.false_eq_true, if_false]
    simp only [hpc, bind_error_eq]
  · intro ti ts1 t ts2 msg pre h hs ht
    induction ts1 generalizing pre with
    | nil =>
        show emitTables ti (t :: ts2) = _
        unfold emitTables
        simp only [hs, Bool.false_eq_true, if_false]
        simp only [ht, bind_error_eq]
    | cons a ts1 ih =>
        show emitTables ti (a :: (ts1 ++ t :: ts2)) = _
        unfold emitTables at h ⊢
        split at h
        · next hskip =>
            rw [if_pos hskip]
            exact ih pre h
        · next hskip =>
            rw [if_neg hskip]
            cases hb : emitTable ti a with
            | error e => rw [hb] at h; simp only [bind_error_eq] at h; exact Except.noConfusion h
            | ok block =>
                rw [hb] at h
                simp only [bind_ok_eq] at h ⊢
                cases hr : emitTables ti ts1 with
                | error e =>
                    rw [hr] at h; simp only [bind_error_eq] at h; exact Except.noConfusion h
                | ok r =>
                    rw [hr] at h
                    simp only [bind_ok_eq] at h
                    rw [ih r hr]
                    simp only [bind_error_eq]

/-- Witness for claim C5: two primary keys on one table. -/
theorem claim_C5_witness :
    processConstraints [] []
        ([⟨"pk1", [ConstraintBody.primaryKey ["id"]]⟩] ++
          ⟨"pk2", [ConstraintBody.primaryKey ["x"]]⟩ :: []) =
      .error "Multiple primary keys found" ∧
    emitTable (fun _ => []) ⟨"users",
        [TableSub.const ⟨"pk1", [ConstraintBody.primaryKey ["id"]]⟩,
         TableSub.const ⟨"pk2", [ConstraintBody.primaryKey ["x"]]⟩]⟩ =
      .error "Multiple primary keys found" ∧
    emitTables (fun _ => []) ([] ++ ⟨"users",
        [TableSub.const ⟨"pk1", [ConstraintBody.primaryKey ["id"]]⟩,
         TableSub.const ⟨"pk2", [ConstraintBody.primaryKey ["x"]]⟩]⟩ :: []) =
      .error "Multiple primary keys found" :=
  ⟨claim_C5.1 [⟨"pk1", [ConstraintBody.primaryKey ["id"]]⟩] [] [] ["id"]
      ["PrimaryKeyConstraint(\"id\", name=\"pk1\")"] "pk2" ["x"] [] (by rfl) (by simp),
   claim_C5.2.1 (fun _ => []) _ _ (by rfl) (by rfl),
   claim_C5.2.2 (fun _ => []) [] _ [] _ [] (by rfl) (by rfl) ((claim_C5.2.1 (fun _ => []) _ _
      (by rfl) (by rfl)))⟩
/-- Claim C6: an index is attached to its owning table's `__table_args__`
block (after the structural constraints), and the output does not depend on
whether the index statement precedes or follows the table statement. -/
theorem claim_C6 :
    (∀ xs (i : IndexDef) (t : TableDef) zs,
        convertStmts (xs ++ Stmt.index i :: Stmt.table t :: zs) =
          convertStmts (xs ++ Stmt.table t :: Stmt.index i :: zs)) ∧
    (∀ (idxs : List IndexDef) (i : IndexDef) (tname : String),
        i ∈ idxs → i.table = tname → renderIndex i ∈ table_indexes idxs tname) ∧
    (∀ (ti : String → List String) (t : TableDef) (pk cargs colLines : List String),
        (t.expressions.all tableSubOk) = true →
        processConstraints [] [] (constraintsOf t) = .ok (pk, cargs) →
        renderColumns pk (columnsOf t) = .ok colLines →
        emitTable ti t = .ok (["class " ++ className t.name ++ "(Base):",
          "    \"\"\"ORM class for " ++ t.name ++ ".\"\"\"", "",
          "    __tablename__ = " ++ quote t.name] ++
          renderTableArgs (cargs ++ ti t.name) ++ colLines ++ ["", ""])) := by
  refine ⟨?_, ?_, ?_⟩
  · intro xs i t zs
    have e1 : (xs ++ Stmt.index i :: Stmt.table t :: zs).all Stmt.isCreate =
        (xs ++ Stmt.table t :: Stmt.index i :: zs).all Stmt.isCreate := by
      simp [Stmt.isCreate]
    have e2 : (xs ++ Stmt.index i :: Stmt.table t :: zs).all Stmt.kindOk =
        (xs ++ Stmt.table t :: Stmt.index i :: zs).all Stmt.kindOk := by
      simp [Stmt.kindOk]
    have e3 : indexesOf (xs ++ Stmt.index i :: Stmt.table t :: zs) =
        indexesOf (xs ++ Stmt.table t :: Stmt.index i :: zs) := by
      simp [indexesOf]
    have e4 : tablesOf (xs ++ Stmt.index i :: Stmt.table t :: zs) =
        tablesOf (xs ++ Stmt.table t :: Stmt.index i :: zs) := by
      simp [tablesOf]
    unfold convertStmts
    rw [e1, e2, e3, e4]
  · intro idxs i tname hi ht
    unfold table_indexes
    refine List.mem_map_of_mem _ (List.mem_filter.mpr ⟨hi, ?_⟩)
    rw [ht]
    exact beq_self_eq_true tname
  · intro ti t pk cargs colLines hok hpc hcols
    unfold emitTable
    simp only [hok, Bool.not_true, Bool.false_eq_true, if_false]
    simp only [hpc, bind_ok_eq]
    simp only [hcols, bind_ok_eq]

/-- Witness for claim C6 at a one-table, one-index input. -/
theorem claim_C6_witness :
    convertStmts ([] ++ Stmt.index ⟨"ix", "users", false, ["id"]⟩ ::
        Stmt.table ⟨"users", [TableSub.col ⟨"id", ⟨.int, []⟩, []⟩]⟩ :: []) =
      convertStmts ([] ++ Stmt.table ⟨"users", [TableSub.col ⟨"id", ⟨.int, []⟩, []⟩]⟩ ::
        Stmt.index ⟨"ix", "users", false, ["id"]⟩ :: []) ∧
    renderIndex ⟨"ix", "users", false, ["id"]⟩ ∈
      table_indexes [⟨"ix", "users", false, ["id"]⟩] "users" ∧
    emitTable (table_indexes [⟨"ix", "users", false, ["id"]⟩])
        ⟨"users", [TableSub.col ⟨"id", ⟨.int, []⟩, []⟩]⟩ =
      .ok (["class " ++ className "users" ++ "(Base):",
        "    \"\"\"ORM class for " ++ "users" ++ ".\"\"\"", "",
        "    __tablename__ = " ++ quote "users"] ++
        renderTableArgs ([] ++ table_indexes [⟨"ix", "users", false, ["id"]⟩] "users") ++
        ["    id: Mapped[int | None]"] ++ ["", ""]) :=
  ⟨claim_C6.1 [] ⟨"ix", "users", false, ["id"]⟩ ⟨"users", [TableSub.col ⟨"id", ⟨.int, []⟩, []⟩]⟩ [],
   claim_C6.2.1 [⟨"ix", "users", false, ["id"]⟩] ⟨"ix", "users", false, ["id"]⟩ "users"
      (List.mem_singleton.mpr rfl) rfl,
   claim_C6.2.2 (table_indexes [⟨"ix", "users", false, ["id"]⟩])
      ⟨"users", [TableSub.col ⟨"id", ⟨.int, []⟩, []⟩]⟩ [] []
      ["    id: Mapped[int | None]"] (by rfl) (by rfl) (by rfl)⟩
/-- Claim C7: a foreign key with reference option "ON DELETE CASCADE" emits
the cascade modifier (and nothing else changes); any other option is an
"Unknown option" error; referenced columns are qualified as table.column. -/
theorem claim_C7 :
    (∀ (pk args : List String) (name : String) (cols : List String) (refTable : String)
        (refCols : List String),
        processConstraint pk args
            ⟨name, [.foreignKey cols refTable refCols ["ON DELETE CASCADE"]]⟩ =
          .ok (pk, args ++
            ["ForeignKeyConstraint([" ++ String.intercalate ", " (cols.map quote) ++
              "], [" ++
              String.intercalate ", " (refCols.map (fun c => quote (refTable ++ "." ++ c))) ++
              "], name=" ++ quote name ++ ", ondelete=\"CASCADE\"" ++ ")"])) ∧
    (∀ (acc : String) (pre : List String) (opt : String) (rest : List String),
        (∀ o ∈ pre, o = "ON DELETE CASCADE") → opt ≠ "ON DELETE CASCADE" →
        buildOptionStr acc (pre ++ opt :: rest) = .error ("Unknown option " ++ opt)) ∧
    (∀ (pk args : List String) (name : String) (cols : List String) (refTable : String)
        (refCols : List String) (opts : List String) (msg : String),
        buildOptionStr "" opts = .error msg →
        processConstraint pk args ⟨name, [.foreignKey cols refTable refCols opts]⟩ =
          .error msg) := by
  refine ⟨?_, ?_, ?_⟩
  · intro pk args name cols refTable refCols
    rfl
  · intro acc pre opt rest hpre hne
    induction pre generalizing acc with
    | nil =>
        show buildOptionStr acc (opt :: rest) = _
        unfold buildOptionStr
        rw [if_neg]
        rw [beq_eq_false_iff_ne.mpr hne]
        exact Bool.false_ne_true
    | cons o pre ih =>
        have ho : o = "ON DELETE CASCADE" := hpre o (List.mem_cons_self o pre)
        show buildOptionStr acc (o :: (pre ++ opt :: rest)) = _
        unfold buildOptionStr
        rw [if_pos]
        · exact ih _ (fun x hx => hpre x (List.mem_cons_of_mem o hx))
        · rw [ho]
          rfl
  · intro pk args name cols refTable refCols opts msg hbo
    unfold processConstraint
    simp only [hbo, bind_error_eq]

/-- Witness for claim C7 at a concrete foreign key. -/
theorem claim_C7_witness :
    processConstraint [] [] ⟨"fk", [ConstraintBody.foreignKey ["user_id"] "accounts" ["id"]
        ["ON DELETE CASCADE"]]⟩ =
      .ok ([], [] ++
        ["ForeignKeyConstraint([" ++ String.intercalate ", " (List.map quote ["user_id"]) ++
          "], [" ++
          String.intercalate ", " (List.map (fun c => quote ("accounts" ++ "." ++ c)) ["id"]) ++
          "], name=" ++ quote "fk" ++ ", ondelete=\"CASCADE\"" ++ ")"]) ∧
    buildOptionStr "" ([] ++ "ON DELETE SET NULL" :: []) =
      .error ("Unknown option " ++ "ON DELETE SET NULL") ∧
    processConstraint [] [] ⟨"fk", [ConstraintBody.foreignKey ["user_id"] "accounts" ["id"]
        ["ON DELETE SET NULL"]]⟩ =
      .error ("Unknown option " ++ "ON DELETE SET NULL") :=
  ⟨claim_C7.1 [] [] "fk" ["user_id"] "accounts" ["id"],
   claim_C7.2.1 "" [] "ON DELETE SET NULL" [] (fun o ho => absurd ho (List.not_mem_nil o))
      (by decide),
   claim_C7.2.2 [] [] "fk" ["user_id"] "accounts" ["id"] ["ON DELETE SET NULL"]
      ("Unknown option " ++ "ON DELETE SET NULL") (by rfl)⟩
/-- Claim C8: the output is written if and only if the whole translation
succeeds; on any validation failure the previous output (if any) is left
untouched. -/
theorem claim_C8 (existing : Option String) (stmts : List Stmt) :
    (∀ msg, convert_sqlite_to_orm stmts = .error msg → runAndWrite existing stmts = existing) ∧
    (∀ text, convert_sqlite_to_orm stmts = .ok text → runAndWrite existing stmts = some text) := by
  constructor <;> intro x h <;> unfold runAndWrite <;> rw [h]

/-- Witness for claim C8: a failing and a succeeding input. -/
theorem claim_C8_witness :
    runAndWrite (some "old") [Stmt.notCreate] = some "old" ∧
    runAndWrite (some "old") [] = some (header ++ String.intercalate "\n" []) :=
  ⟨(claim_C8 (some "old") [Stmt.notCreate]).1
      "Input file must contain only CREATE TABLE statements." (by rfl),
   (claim_C8 (some "old") []).2 (header ++ String.intercalate "\n" []) (by rfl)⟩

/-- Claim C9: nonempty table-level declarations are rendered multi-line
exactly when the single-line join plus the fixed 23-character prefix
allowance exceeds the 100-character budget, and inline otherwise. -/
theorem claim_C9 (table_args : List String) (hne : table_args ≠ []) :
    (MAX_LINE_LENGTH < (String.intercalate ", " table_args).length + 23 →
        renderTableArgs table_args =
          "    __table_args__ = (" ::
            (table_args.map (fun line => "        " ++ line ++ ",") ++ ["    )"])) ∧
    ((String.intercalate ", " table_args).length + 23 ≤ MAX_LINE_LENGTH →
        renderTableArgs table_args =
          ["    __table_args__ = (" ++ String.intercalate ", " table_args ++ ",)"]) := by
  constructor
  · intro h
    unfold renderTableArgs
    rw [if_pos h]
  · intro h
    unfold renderTableArgs
    rw [if_neg (Nat.not_lt.mpr h)]
    have hE : table_args.isEmpty = false := by
      cases table_args with
      | nil => exact absurd rfl hne
      | cons a l => rfl
    simp only [hE, Bool.not_false, if_true]

/-- Witness for claim C9: a short and a long declaration list. -/
theorem claim_C9_witness :
    renderTableArgs ["a"] =
      ["    __table_args__ = (" ++ String.intercalate ", " ["a"] ++ ",)"] ∧
    renderTableArgs
        ["xxxxxxxxxxxxxxxxxxxxxxxxxxxxxxxxxxxxxxxxxxxxxxxxxxxxxxxxxxxxxxxxxxxxxxxxxxxxxxxx"] =
      "    __table_args__ = (" ::
        (["xxxxxxxxxxxxxxxxxxxxxxxxxxxxxxxxxxxxxxxxxxxxxxxxxxxxxxxxxxxxxxxxxxxxxxxxxxxxxxxx"].map
          (fun line => "        " ++ line ++ ",") ++ ["    )"]) :=
  ⟨(claim_C9 ["a"] (by decide)).2 (by decide),
   (claim_C9 ["xxxxxxxxxxxxxxxxxxxxxxxxxxxxxxxxxxxxxxxxxxxxxxxxxxxxxxxxxxxxxxxxxxxxxxxxxxxxxxxx"]
      (by decide)).1 (by decide)⟩

theorem emitTable_ti_congr (ti ti' : String → List String) (t : TableDef)
    (h : ti t.name = ti' t.name) : emitTable ti t = emitTable ti' t := by
  unfold emitTable
  rw [h]

theorem emitTables_ti_congr (ti ti' : String → List String) (ts : List TableDef)
    (h : ∀ t ∈ ts, py_startswith t.name "sqlite_" = false → ti t.name = ti' t.name) :
    emitTables ti ts = emitTables ti' ts := by
  induction ts with
  | nil => rfl
  | cons t rest ih =>
      show emitTables ti (t :: rest) = emitTables ti' (t :: rest)
      unfold emitTables
      split
      · exact ih (fun x hx hr => h x (List.mem_cons_of_mem t hx) hr)
      · next hns =>
          rw [emitTable_ti_congr ti ti' t
            (h t (List.mem_cons_self t rest) (Bool.not_eq_true _ ▸ hns))]
          rw [ih (fun x hx hr => h x (List.mem_cons_of_mem t hx) hr)]

theorem mem_tablesOf (t : TableDef) (stmts : List Stmt) :
    t ∈ tablesOf stmts ↔ Stmt.table t ∈ stmts := by
  unfold tablesOf
  rw [List.mem_filterMap]
  constructor
  · rintro ⟨s, hs, he⟩
    cases s with
    | table t2 => injection he with he; subst he; exact hs
    | index i => exact Option.noConfusion he
    | badCreate k => exact Option.noConfusion he
    | notCreate => exact Option.noConfusion he
  · intro hmem
    exact ⟨Stmt.table t, hmem, rfl⟩

/-- Claim C10: an index whose owning table name names no emitted table (no
table statement, or only reserved-prefix tables) contributes nothing and
raises no error: dropping the index statement leaves the output unchanged. -/
theorem claim_C10 (xs : List Stmt) (i : IndexDef) (ys : List Stmt)
    (h : ∀ t : TableDef, Stmt.table t ∈ xs ++ ys → t.name = i.table →
        py_startswith t.name "sqlite_" = true) :
    convertStmts (xs ++ Stmt.index i :: ys) = convertStmts (xs ++ ys) := by
  have e1 : (xs ++ Stmt.index i :: ys).all Stmt.isCreate = (xs ++ ys).all Stmt.isCreate := by
    simp [Stmt.isCreate]
  have e2 : (xs ++ Stmt.index i :: ys).all Stmt.kindOk = (xs ++ ys).all Stmt.kindOk := by
    simp [Stmt.kindOk]
  have e4 : tablesOf (xs ++ Stmt.index i :: ys) = tablesOf (xs ++ ys) := by
    simp [tablesOf]
  have e3 : indexesOf (xs ++ Stmt.index i :: ys) = indexesOf xs ++ i :: indexesOf ys := by
    simp [indexesOf]
  have e5 : indexesOf (xs ++ ys) = indexesOf xs ++ indexesOf ys := by
    simp [indexesOf]
  unfold convertStmts
  rw [e1, e2, e3, e4, e5]
  have key : emitTables (table_indexes (indexesOf xs ++ i :: indexesOf ys)) (tablesOf (xs ++ ys)) =
      emitTables (table_indexes (indexesOf xs ++ indexesOf ys)) (tablesOf (xs ++ ys)) := by
    apply emitTables_ti_congr
    intro t htmem hres
    have hne : (i.table == t.name) = false := by
      rw [beq_eq_false_iff_ne]
      intro he
      have := h t ((mem_tablesOf t (xs ++ ys)).mp htmem) he.symm
      rw [this] at hres
      exact Bool.true_eq_false ▸ Bool.noConfusion hres
    unfold table_indexes
    rw [List.filter_append, List.filter_cons, List.filter_append]
    simp only [hne, Bool.false_eq_true, if_false]
  rw [key]

/-- Witness for claim C10: an index on a table that does not exist. -/
theorem claim_C10_witness :
    convertStmts ([] ++ Stmt.index ⟨"ix", "nope", false, ["id"]⟩ ::
        [Stmt.table ⟨"users", [TableSub.col ⟨"id", ⟨.int, []⟩, []⟩]⟩]) =
      convertStmts ([] ++ [Stmt.table ⟨"users", [TableSub.col ⟨"id", ⟨.int, []⟩, []⟩]⟩]) :=
  claim_C10 [] ⟨"ix", "nope", false, ["id"]⟩
    [Stmt.table ⟨"users", [TableSub.col ⟨"id", ⟨.int, []⟩, []⟩]⟩]
    (by
      intro t ht he
      rw [List.nil_append, List.mem_singleton] at ht
      injection ht with ht
      subst ht
      exact absurd he (by decide))

end SqliteToOrm
